import Mathlib

/-!
Shallow embedding of `src/oit/packages/image.py` (the `oit` distgit
synchronization tool): the `source_path` and `populate_distgit_dir`
methods of `ImageMetadata`, together with the filesystem primitives they
invoke (`os.listdir`, `shutil.rmtree`, `os.remove`, `os.rename`,
`os.path.isfile`, `os.path.join`) and the out-of-src `common` helpers
(`assert_dir`, `recursive_overwrite`) modelled from the spec.

A directory is a list of named entries; an entry is a regular file with
string content or a sub-directory.  The ambient filesystem outside the
distgit working directory is abstracted as a read function
`readDir : String → Option Entries` returning the entries of a path when
that path is an existing directory.  `os.listdir` iteration order is the
list order of the entries.  Errors raised by the Python code are values
of `OsError`; the spec's taxonomy (`ConfigError` / `FilesystemError`) is
the predicate pair `OsError.isConfigError` / `OsError.isFilesystemError`.
-/

namespace Elliott

/-- A node of the modelled filesystem: a regular file with its content,
or a directory with its named entries. -/
inductive FsNode where
  | file (content : String)
  | dir (entries : List (String × FsNode))

/-- The direct entries of a directory, in `os.listdir` order. -/
abbrev Entries := List (String × FsNode)

/-- Python's `s.startswith(p)`, computed structurally on the character
lists so that concrete runs reduce in the kernel. -/
def strStartsWith (s p : String) : Bool := p.data.isPrefixOf s.data

/-- Python's `s.endswith(p)`, computed structurally on the character
lists. -/
def strEndsWith (s p : String) : Bool := p.data.reverse.isPrefixOf s.data.reverse

/-- Look up the entry with the given name. -/
def lookupEnt : Entries → String → Option FsNode
  | [], _ => none
  | (k, v) :: es, n => if n = k then some v else lookupEnt es n

/-- Remove the entry with the given name (directory entries are unique in
a real filesystem; removal drops every entry of that name). -/
def removeEnt : Entries → String → Entries
  | [], _ => []
  | (k, v) :: es, n => if k = n then removeEnt es n else (k, v) :: removeEnt es n

/-- Create or overwrite the entry with the given name. -/
def setEnt : Entries → String → FsNode → Entries
  | [], n, v => [(n, v)]
  | (k, w) :: es, n, v => if k = n then (n, v) :: es else (k, w) :: setEnt es n v

/-- `os.listdir(".")`: the entry names, in directory order. -/
def listNames (es : Entries) : List String := es.map Prod.fst

/-- `os.path.isfile(n)` relative to the current directory entries. -/
def isFileEnt (es : Entries) (n : String) : Bool :=
  match lookupEnt es n with
  | some (FsNode.file _) => true
  | _ => false

/-- Errors raised by the embedded code.  `missingAlias` and
`unregisteredAlias` are the two `IOError`s of `source_path` (the spec's
`ConfigError`s); the rest are filesystem failures. -/
inductive OsError where
  | missingAlias
  | unregisteredAlias (a : String)
  | pathNotDir (p : String)
  | notADirectory (n : String)
  | isADirectory (n : String)
  | dirNotEmpty (n : String)
  | noSuchFile (n : String)
deriving DecidableEq

/-- The spec's `ConfigError` class: a required configuration field is
absent or semantically invalid. -/
def OsError.isConfigError : OsError → Bool
  | .missingAlias => true
  | .unregisteredAlias _ => true
  | _ => false

/-- The spec's `FilesystemError` class. -/
def OsError.isFilesystemError : OsError → Bool
  | .pathNotDir _ => true
  | .notADirectory _ => true
  | .isADirectory _ => true
  | .dirNotEmpty _ => true
  | .noSuchFile _ => true
  | _ => false

/-- `shutil.rmtree(n)`: recursively delete the directory named `n`.
Raises `NotADirectoryError` when `n` is a regular file and
`FileNotFoundError` when `n` does not exist. -/
def rmtree (es : Entries) (n : String) : Except OsError Entries :=
  match lookupEnt es n with
  | some (FsNode.dir _) => .ok (removeEnt es n)
  | some (FsNode.file _) => .error (.notADirectory n)
  | none => .error (.noSuchFile n)

/-- `os.remove(n)`: delete the regular file named `n`.  Raises
`IsADirectoryError` on a directory and `FileNotFoundError` when absent. -/
def os_remove (es : Entries) (n : String) : Except OsError Entries :=
  match lookupEnt es n with
  | some (FsNode.file _) => .ok (removeEnt es n)
  | some (FsNode.dir _) => .error (.isADirectory n)
  | none => .error (.noSuchFile n)

/-- `os.rename(src, dst)` with POSIX semantics: raises
`FileNotFoundError` when `src` does not exist; renaming an entry onto
its own name succeeds unchanged; an existing `dst` is replaced only
compatibly — a file over an existing directory raises
`IsADirectoryError`, a directory over an existing file raises
`NotADirectoryError`, and a directory over a non-empty directory fails
with `ENOTEMPTY`. -/
def os_rename (es : Entries) (src dst : String) : Except OsError Entries :=
  match lookupEnt es src with
  | none => .error (.noSuchFile src)
  | some node =>
    if src = dst then .ok es
    else
      match node, lookupEnt es dst with
      | FsNode.file _, some (FsNode.dir _) => .error (.isADirectory dst)
      | FsNode.dir _, some (FsNode.file _) => .error (.notADirectory dst)
      | FsNode.dir _, some (FsNode.dir (_ :: _)) => .error (.dirNotEmpty dst)
      | _, _ => .ok (setEnt (removeEnt es src) dst node)

/-- `os.path.join(a, b)` for POSIX paths. -/
def os_path_join (a b : String) : String :=
  if strStartsWith b "/" then b
  else if a = "" then b
  else if strEndsWith a "/" then a ++ b
  else a ++ "/" ++ b

/-- The `content.source` section of an image configuration.  Each field
is `Option` because the `Model` wrapper yields the `Missing` sentinel for
absent YAML keys. -/
structure SourceConfig where
  aliasName : Option String
  path : Option String
  dockerfile : Option String

/-- The slice of the image configuration consumed by population:
`content.source`, absent when the YAML has no such section. -/
structure ImageConfig where
  source : Option SourceConfig

/-- Lines 76-78 of `source_path`: the alias root itself when no
`content.source.path` is configured, otherwise the joined sub-path. -/
def resolved_path (source_root : String) (sub_path : Option String) : String :=
  match sub_path with
  | none => source_root
  | some sp => os_path_join source_root sp

/-- `ImageMetadata.source_path`: resolve `content.source.alias` through
the runtime's registry `source_alias`, optionally join
`content.source.path`, and require the result to be an existing
directory.  `assert_dir` (from the `common` module, not under `src/`) is
modelled from the spec as the check that the resolved path is an existing
directory, i.e. that `readDir` returns its entries.  The function only
reads; it mutates nothing. -/
def source_path (readDir : String → Option Entries)
    (source_alias : String → Option String) (cfg : ImageConfig) :
    Except OsError String :=
  match cfg.source.bind SourceConfig.aliasName with
  | none => .error .missingAlias
  | some a =>
    match source_alias a with
    | none => .error (.unregisteredAlias a)
    | some source_root =>
      let path := resolved_path source_root (cfg.source.bind SourceConfig.path)
      if (readDir path).isSome then .ok path else .error (.pathNotDir path)

mutual

/-- Modelled from the spec: how one source node lands on whatever the
destination holds under the same name — a file copies bytes and
overwrites unconditionally; a directory recurses into an existing
destination directory, or into a freshly created empty one otherwise. -/
def overwriteNode : FsNode → Option FsNode → FsNode
  | FsNode.file c, _ => FsNode.file c
  | FsNode.dir sub, some (FsNode.dir dsub) => FsNode.dir (recursive_overwrite sub dsub)
  | FsNode.dir sub, _ => FsNode.dir (recursive_overwrite sub [])

/-- Modelled from the spec: `recursive_overwrite` from the `common`
module is not under `src/`; the spec describes it as a full tree
merge-copy — for each source entry, a directory recurses (creating the
destination directory first if absent) and a file copies bytes,
overwriting unconditionally. -/
def recursive_overwrite : Entries → Entries → Entries
  | [], dest => dest
  | (n, node) :: rest, dest =>
      recursive_overwrite rest (setEnt dest n (overwriteNode node (lookupEnt dest n)))

end

/-- The cleanup `for` loop of `populate_distgit_dir` (lines 91-103): over
the names listed at entry to the loop, skip hidden entries and the
`additional-tags` sentinel, and `shutil.rmtree` everything else. -/
def cleanLoop : List String → Entries → Except OsError Entries
  | [], acc => .ok acc
  | ent :: rest, acc =>
    if strStartsWith ent "." then cleanLoop rest acc
    else if ent = "additional-tags" then cleanLoop rest acc
    else
      match rmtree acc ent with
      | .ok acc2 => cleanLoop rest acc2
      | .error e => .error e

/-- Step 1 of population: clean up any entries not special to the
distgit repo. -/
def clean_distgit_entries (es : Entries) : Except OsError Entries :=
  cleanLoop (listNames es) es

/-- Step 3 of population (lines 110-118): when
`content.source.dockerfile` names a file other than `"Dockerfile"`,
remove any regular file `"Dockerfile"` left by the copy, then
`os.rename` the configured dockerfile — to the literal, misspelled name
`"Dockerilfe"` exactly as the source does. -/
def normalize_dockerfile (sc : SourceConfig) (es : Entries) :
    Except OsError Entries :=
  match sc.dockerfile with
  | none => .ok es
  | some dockerfile_name =>
    if dockerfile_name ≠ "Dockerfile" then
      let es1 := if isFileEnt es "Dockerfile" then removeEnt es "Dockerfile" else es
      os_rename es1 dockerfile_name "Dockerilfe"
    else .ok es

/-- The final `for` loop of `populate_distgit_dir` (lines 120-124): for
each listed name, only when the module runs as a script
(`__name__ == '__main__'`) are names starting with `"Dockerfile."`
removed. -/
def cleanupLoop (runAsMain : Bool) : List String → Entries → Except OsError Entries
  | [], acc => .ok acc
  | ent :: rest, acc =>
    if runAsMain then
      if strStartsWith ent "Dockerfile." then
        match os_remove acc ent with
        | .ok acc2 => cleanupLoop runAsMain rest acc2
        | .error e => .error e
      else cleanupLoop runAsMain rest acc
    else cleanupLoop runAsMain rest acc

/-- Step 4 of population: clean up extraneous `Dockerfile.*` entries —
guarded, in the source, by `__name__ == '__main__'`. -/
def cleanup_dockerfile_variants (runAsMain : Bool) (es : Entries) :
    Except OsError Entries :=
  cleanupLoop runAsMain (listNames es) es

/-- `ImageMetadata.populate_distgit_dir` (lines 83-124), acting on the
entries of the distgit working directory.  `runAsMain` is the value of
`__name__ == '__main__'` (false whenever the module is imported). -/
def populate_distgit_dir (runAsMain : Bool) (readDir : String → Option Entries)
    (source_alias : String → Option String) (cfg : ImageConfig)
    (distgit : Entries) : Except OsError Entries :=
  match cfg.source with
  | none => .ok distgit
  | some sc =>
    match clean_distgit_entries distgit with
    | .error e => .error e
    | .ok cleaned =>
      match source_path readDir source_alias cfg with
      | .error e => .error e
      | .ok src_path =>
        let copied := recursive_overwrite ((readDir src_path).getD []) cleaned
        match normalize_dockerfile sc copied with
        | .error e => .error e
        | .ok normalized => cleanup_dockerfile_variants runAsMain normalized

/-! ## Helper lemmas about the directory-entry primitives -/

theorem lookupEnt_setEnt_self (es : Entries) (n : String) (v : FsNode) :
    lookupEnt (setEnt es n v) n = some v := by
  induction es with
  | nil => simp [setEnt, lookupEnt]
  | cons e es ih =>
    obtain ⟨k, w⟩ := e
    by_cases h : k = n
    · simp [setEnt, h, lookupEnt]
    · simp [setEnt, h, lookupEnt, Ne.symm h, ih]

theorem lookupEnt_setEnt_ne (es : Entries) (n m : String) (v : FsNode)
    (h : m ≠ n) : lookupEnt (setEnt es n v) m = lookupEnt es m := by
  induction es with
  | nil => simp [setEnt, lookupEnt, h]
  | cons e es ih =>
    obtain ⟨k, w⟩ := e
    by_cases hk : k = n
    · subst hk; simp [setEnt, lookupEnt, h]
    · simp [setEnt, hk, lookupEnt, ih]

theorem lookupEnt_removeEnt_self (es : Entries) (n : String) :
    lookupEnt (removeEnt es n) n = none := by
  induction es with
  | nil => simp [removeEnt, lookupEnt]
  | cons e es ih =>
    obtain ⟨k, w⟩ := e
    by_cases h : k = n
    · simp [removeEnt, h, ih]
    · simp [removeEnt, h, lookupEnt, Ne.symm h, ih]

theorem lookupEnt_removeEnt_ne (es : Entries) (n m : String) (h : m ≠ n) :
    lookupEnt (removeEnt es n) m = lookupEnt es m := by
  induction es with
  | nil => simp [removeEnt]
  | cons e es ih =>
    obtain ⟨k, w⟩ := e
    by_cases hk : k = n
    · subst hk; simp [removeEnt, lookupEnt, h, ih]
    · by_cases hm : m = k <;> simp [removeEnt, hk, lookupEnt, hm, ih]

theorem mem_listNames_of_lookupEnt (es : Entries) (n : String) (v : FsNode)
    (h : lookupEnt es n = some v) : n ∈ listNames es := by
  induction es with
  | nil => simp [lookupEnt] at h
  | cons e es ih =>
    obtain ⟨k, w⟩ := e
    by_cases hk : n = k
    · simp [listNames, hk]
    · simp [lookupEnt, hk] at h
      simp [listNames] at ih ⊢
      exact Or.inr (ih h)

theorem isFileEnt_congr (es es2 : Entries) (n : String)
    (h : lookupEnt es n = lookupEnt es2 n) : isFileEnt es n = isFileEnt es2 n := by
  rw [isFileEnt, isFileEnt, h]

theorem os_rename_ok (es : Entries) (src dst : String) (es2 : Entries)
    (h : os_rename es src dst = .ok es2) :
    ∃ v, lookupEnt es src = some v ∧
      ((src = dst ∧ es2 = es) ∨ es2 = setEnt (removeEnt es src) dst v) := by
  rw [os_rename] at h
  cases hl : lookupEnt es src with
  | none =>
    simp only [hl] at h
    exact Except.noConfusion h
  | some node =>
    simp only [hl] at h
    by_cases hsd : src = dst
    · rw [if_pos hsd] at h
      injection h with h
      exact ⟨node, rfl, Or.inl ⟨hsd, h.symm⟩⟩
    · rw [if_neg hsd] at h
      refine ⟨node, rfl, Or.inr ?_⟩
      cases node with
      | file c =>
        cases hd : lookupEnt es dst with
        | none =>
          simp only [hd] at h
          injection h with h
          exact h.symm
        | some nd =>
          cases nd with
          | file c2 =>
            simp only [hd] at h
            injection h with h
            exact h.symm
          | dir d2 =>
            simp only [hd] at h
            exact Except.noConfusion h
      | dir sub =>
        cases hd : lookupEnt es dst with
        | none =>
          simp only [hd] at h
          injection h with h
          exact h.symm
        | some nd =>
          cases nd with
          | file c2 =>
            simp only [hd] at h
            exact Except.noConfusion h
          | dir d2 =>
            cases d2 with
            | nil =>
              simp only [hd] at h
              injection h with h
              exact h.symm
            | cons e2 rest2 =>
              simp only [hd] at h
              exact Except.noConfusion h

theorem cleanupLoop_not_main (l : List String) (es : Entries) :
    cleanupLoop false l es = .ok es := by
  induction l with
  | nil => rfl
  | cons e l ih => simp [cleanupLoop, ih]

theorem cleanLoop_stuck_on_file (l : List String) (acc : Entries) (n c : String)
    (hmem : n ∈ l) (hhid : strStartsWith n "." = false)
    (hsent : n ≠ "additional-tags")
    (hfile : lookupEnt acc n = some (FsNode.file c)) :
    ∃ e, cleanLoop l acc = .error e := by
  induction l generalizing acc with
  | nil => simp at hmem
  | cons m rest ih =>
    rcases List.mem_cons.mp hmem with he | hrest
    · subst he
      simp [cleanLoop, hhid, hsent, rmtree, hfile]
    · by_cases h1 : strStartsWith m "." = true
      · simpa [cleanLoop, h1] using ih _ hrest hfile
      · by_cases h2 : m = "additional-tags"
        · simpa [cleanLoop, h1, h2] using ih _ hrest hfile
        · cases hlm : lookupEnt acc m with
          | none => simp [cleanLoop, h1, h2, rmtree, hlm]
          | some node =>
            cases node with
            | file c2 => simp [cleanLoop, h1, h2, rmtree, hlm]
            | dir sub =>
              have hnm : n ≠ m := by
                intro he
                subst he
                rw [hfile] at hlm
                cases hlm
              have hfile2 : lookupEnt (removeEnt acc m) n = some (FsNode.file c) := by
                rw [lookupEnt_removeEnt_ne _ _ _ hnm, hfile]
              simpa [cleanLoop, h1, h2, rmtree, hlm] using ih _ hrest hfile2

/-! ## Claim theorems -/

/-- C3: when the configuration has no `content.source` section,
`populate_distgit_dir` returns immediately and the distgit directory's
entry tree is unchanged. -/
theorem populate_noop_without_content_source (runAsMain : Bool)
    (readDir : String → Option Entries) (source_alias : String → Option String)
    (cfg : ImageConfig) (distgit : Entries) (h : cfg.source = none) :
    populate_distgit_dir runAsMain readDir source_alias cfg distgit = .ok distgit := by
  simp [populate_distgit_dir, h]

/-- Witness for C3 at a concrete configuration and tree. -/
theorem populate_noop_without_content_source_witness :
    populate_distgit_dir false (fun _ => none) (fun _ => none) ⟨none⟩
      [("f", FsNode.file "x")] = .ok [("f", FsNode.file "x")] :=
  populate_noop_without_content_source false (fun _ => none) (fun _ => none)
    ⟨none⟩ [("f", FsNode.file "x")] rfl

/-- C4: with a registered alias whose resolved path is an existing
directory, `source_path` returns the registry root when
`content.source.path` is absent and the joined sub-path when present. -/
theorem source_path_resolves_registered_alias
    (readDir : String → Option Entries) (source_alias : String → Option String)
    (sc : SourceConfig) (a root : String)
    (ha : sc.aliasName = some a) (hreg : source_alias a = some root)
    (hdir : (readDir (resolved_path root sc.path)).isSome = true) :
    source_path readDir source_alias ⟨some sc⟩ =
      .ok (resolved_path root sc.path) := by
  simp [source_path, ha, hreg, hdir]

/-- Witness for C4 at a concrete registry and configuration with a
sub-path. -/
theorem source_path_resolves_registered_alias_witness :
    source_path (fun p => if p = "/src/sub" then some [] else none)
      (fun a => if a = "app" then some "/src" else none)
      ⟨some ⟨some "app", some "sub", none⟩⟩ =
      .ok (resolved_path "/src" (some "sub")) :=
  source_path_resolves_registered_alias _ _ _ "app" "/src" rfl rfl rfl

/-- C5: `source_path` fails with the spec's `ConfigError` both when
`content.source.alias` is absent and when the named alias is not
registered; in the embedding `source_path` only reads the registry and
the filesystem, so no filesystem mutation occurs in either case. -/
theorem source_path_config_errors (readDir : String → Option Entries)
    (source_alias : String → Option String) (cfg : ImageConfig) :
    (cfg.source.bind SourceConfig.aliasName = none →
      source_path readDir source_alias cfg = .error .missingAlias ∧
      OsError.missingAlias.isConfigError = true) ∧
    (∀ a, cfg.source.bind SourceConfig.aliasName = some a →
      source_alias a = none →
      source_path readDir source_alias cfg = .error (.unregisteredAlias a) ∧
      (OsError.unregisteredAlias a).isConfigError = true) := by
  refine ⟨fun h => ⟨?_, rfl⟩, fun a ha hreg => ⟨?_, rfl⟩⟩
  · simp [source_path, h]
  · simp [source_path, ha, hreg]

/-- Witness for C5: a configuration without an alias and one with an
unregistered alias, both at an empty registry. -/
theorem source_path_config_errors_witness :
    source_path (fun _ => none) (fun _ => none) ⟨some ⟨none, none, none⟩⟩ =
      .error .missingAlias ∧
    source_path (fun _ => none) (fun _ => none) ⟨some ⟨some "z", none, none⟩⟩ =
      .error (.unregisteredAlias "z") :=
  ⟨((source_path_config_errors (fun _ => none) (fun _ => none)
      ⟨some ⟨none, none, none⟩⟩).1 rfl).1,
   ((source_path_config_errors (fun _ => none) (fun _ => none)
      ⟨some ⟨some "z", none, none⟩⟩).2 "z" rfl rfl).1⟩

/-- C6: with a registered alias, when the resolved path (root, optionally
joined with the sub-path) is not an existing directory, `source_path`
fails with the spec's `FilesystemError`. -/
theorem source_path_fails_when_path_not_dir
    (readDir : String → Option Entries) (source_alias : String → Option String)
    (cfg : ImageConfig) (a root : String)
    (ha : cfg.source.bind SourceConfig.aliasName = some a)
    (hreg : source_alias a = some root)
    (hdir : readDir (resolved_path root (cfg.source.bind SourceConfig.path)) = none) :
    source_path readDir source_alias cfg =
      .error (.pathNotDir (resolved_path root (cfg.source.bind SourceConfig.path))) ∧
    (OsError.pathNotDir
      (resolved_path root (cfg.source.bind SourceConfig.path))).isFilesystemError = true := by
  refine ⟨?_, rfl⟩
  simp [source_path, ha, hreg, hdir]

/-- Witness for C6: a registered alias whose root does not exist on the
modelled filesystem. -/
theorem source_path_fails_when_path_not_dir_witness :
    source_path (fun _ => none) (fun a => if a = "app" then some "/src" else none)
      ⟨some ⟨some "app", none, none⟩⟩ =
      .error (.pathNotDir (resolved_path "/src" none)) ∧
    (OsError.pathNotDir (resolved_path "/src" none)).isFilesystemError = true :=
  source_path_fails_when_path_not_dir _ _ ⟨some ⟨some "app", none, none⟩⟩
    "app" "/src" rfl rfl rfl

/-- C1: evaluating the code at the claim's own scenario — a source
directory holding only `Dockerfile.rhel` with
`content.source.dockerfile = "Dockerfile.rhel"` — population produces an
entry named `Dockerilfe` (the misspelled rename target on line 118) and
no canonical `Dockerfile` at all, contradicting the claim that the
canonical build file exists afterwards. -/
theorem populate_produces_misspelled_dockerilfe :
    populate_distgit_dir false
      (fun p => if p = "/src" then some [("Dockerfile.rhel", FsNode.file "FROM rhel")] else none)
      (fun a => if a = "app" then some "/src" else none)
      ⟨some ⟨some "app", none, some "Dockerfile.rhel"⟩⟩ [] =
      .ok [("Dockerilfe", FsNode.file "FROM rhel")] ∧
    lookupEnt [("Dockerilfe", FsNode.file "FROM rhel")] "Dockerfile" = none :=
  ⟨rfl, rfl⟩

/-- C2: evaluating the code at the claim's own scenario — a distgit
directory holding `.git/`, `.gitignore`, `additional-tags` and the
regular file `old-file.txt` — the selective-clean loop applies
`shutil.rmtree` to `old-file.txt`, which raises `NotADirectoryError`
instead of removing the file, so population aborts rather than
terminating normally. -/
theorem populate_crashes_on_regular_file_cleanup :
    populate_distgit_dir false
      (fun p => if p = "/src" then some [("new-file.txt", FsNode.file "n")] else none)
      (fun a => if a = "app" then some "/src" else none)
      ⟨some ⟨some "app", none, none⟩⟩
      [(".git", FsNode.dir []), (".gitignore", FsNode.file ""),
       ("additional-tags", FsNode.file "t"), ("old-file.txt", FsNode.file "o")] =
      .error (.notADirectory "old-file.txt") := rfl

/-- C7: the code is not idempotent — on an initially empty distgit
directory with a source tree holding directory `b/` and regular file
`c.txt`, the first run succeeds, but the second run's selective-clean
loop deletes `b` and then raises `NotADirectoryError` applying
`shutil.rmtree` to the regular file `c.txt` it copied in the first run,
instead of reproducing the first run's tree. -/
theorem populate_not_idempotent_second_run_fails :
    populate_distgit_dir false
      (fun p => if p = "/src" then some [("b", FsNode.dir [("x", FsNode.file "1")]), ("c.txt", FsNode.file "2")] else none)
      (fun a => if a = "app" then some "/src" else none)
      ⟨some ⟨some "app", none, none⟩⟩ [] =
      .ok [("b", FsNode.dir [("x", FsNode.file "1")]), ("c.txt", FsNode.file "2")] ∧
    populate_distgit_dir false
      (fun p => if p = "/src" then some [("b", FsNode.dir [("x", FsNode.file "1")]), ("c.txt", FsNode.file "2")] else none)
      (fun a => if a = "app" then some "/src" else none)
      ⟨some ⟨some "app", none, none⟩⟩
      [("b", FsNode.dir [("x", FsNode.file "1")]), ("c.txt", FsNode.file "2")] =
      .error (.notADirectory "c.txt") :=
  ⟨rfl, rfl⟩

/-- C8 counterexample: when the source tree also holds a directory named
`Dockerfile`, that directory survives population (the removal on line 115
is guarded by `os.path.isfile`), so an entry named `Dockerfile` does
still exist afterwards — refuting the claim's final clause as stated. -/
theorem populate_dockerfile_directory_survives :
    populate_distgit_dir false
      (fun p => if p = "/src" then some [("Dockerfile", FsNode.dir []), ("Dockerfile.rhel", FsNode.file "c")] else none)
      (fun a => if a = "app" then some "/src" else none)
      ⟨some ⟨some "app", none, some "Dockerfile.rhel"⟩⟩ [] =
      .ok [("Dockerfile", FsNode.dir []), ("Dockerilfe", FsNode.file "c")] ∧
    lookupEnt [("Dockerfile", FsNode.dir []), ("Dockerilfe", FsNode.file "c")]
      "Dockerfile" = some (FsNode.dir []) :=
  ⟨rfl, rfl⟩

/-- C8 amended: for every population run (module imported) where
`content.source.dockerfile` is set to a name other than `Dockerfile`,
that entry exists after the copy step, and the run terminates normally,
populate has deleted any regular file named `Dockerfile` and renamed the
configured dockerfile to the literal name `Dockerilfe`: the final tree's
`Dockerilfe` entry holds the configured dockerfile's post-copy content
and no regular file named `Dockerfile` exists.  The normal-termination
proviso is necessary because `os.rename` itself raises
`IsADirectoryError` when an incompatible `Dockerilfe` entry (a copied
directory of that name) already occupies the rename target. -/
theorem populate_renames_dockerfile_to_misspelled_target
    (readDir : String → Option Entries) (source_alias : String → Option String)
    (sc : SourceConfig) (dn sp : String) (distgit cleaned final : Entries) (node : FsNode)
    (hdf : sc.dockerfile = some dn) (hne : dn ≠ "Dockerfile")
    (hclean : clean_distgit_entries distgit = .ok cleaned)
    (hsp : source_path readDir source_alias ⟨some sc⟩ = .ok sp)
    (hex : lookupEnt (recursive_overwrite ((readDir sp).getD []) cleaned) dn = some node)
    (hrun : populate_distgit_dir false readDir source_alias ⟨some sc⟩ distgit = .ok final) :
    lookupEnt final "Dockerilfe" = some node ∧
    isFileEnt final "Dockerfile" = false := by
  set copied := recursive_overwrite ((readDir sp).getD []) cleaned with hcopied
  set es1 := if isFileEnt copied "Dockerfile" then removeEnt copied "Dockerfile" else copied with hes1
  have h1 : lookupEnt es1 dn = some node := by
    rw [hes1]
    by_cases hf : isFileEnt copied "Dockerfile"
    · rw [if_pos hf, lookupEnt_removeEnt_ne _ _ _ hne]
      exact hex
    · rw [if_neg hf]
      exact hex
  have hnotfile : isFileEnt es1 "Dockerfile" = false := by
    rw [hes1]
    by_cases hf : isFileEnt copied "Dockerfile"
    · rw [if_pos hf, isFileEnt, lookupEnt_removeEnt_self]
    · rw [if_neg hf]
      exact Bool.eq_false_iff.mpr hf
  have hnorm : normalize_dockerfile sc copied = os_rename es1 dn "Dockerilfe" := by
    rw [normalize_dockerfile, hdf]
    simp only [hne, if_true, ite_not]
    rw [← hes1]
    simp
  have hpop : populate_distgit_dir false readDir source_alias ⟨some sc⟩ distgit =
      (match normalize_dockerfile sc copied with
       | .error e => .error e
       | .ok normalized => cleanup_dockerfile_variants false normalized) := by
    simp [populate_distgit_dir, hclean, hsp, ← hcopied]
  have hn : normalize_dockerfile sc copied = .ok final := by
    cases hn0 : normalize_dockerfile sc copied with
    | error e =>
      rw [hpop, hn0] at hrun
      simp at hrun
    | ok normalized =>
      rw [hpop, hn0] at hrun
      simp only [cleanup_dockerfile_variants, cleanupLoop_not_main] at hrun
      exact hrun
  rw [hnorm] at hn
  obtain ⟨v, hv, hcase⟩ := os_rename_ok es1 dn "Dockerilfe" final hn
  rw [h1] at hv
  injection hv with hv
  subst hv
  rcases hcase with ⟨hdd, hfe⟩ | hfe
  · subst hfe
    refine ⟨?_, hnotfile⟩
    rw [← hdd]
    exact h1
  · subst hfe
    refine ⟨lookupEnt_setEnt_self _ _ _, ?_⟩
    have hlk : lookupEnt (setEnt (removeEnt es1 dn) "Dockerilfe" node) "Dockerfile"
        = lookupEnt es1 "Dockerfile" := by
      rw [lookupEnt_setEnt_ne _ _ _ _ (by decide),
        lookupEnt_removeEnt_ne _ _ _ (Ne.symm hne)]
    exact (isFileEnt_congr _ _ "Dockerfile" hlk).trans hnotfile

/-- Witness for the amended C8 at a concrete run that terminates
normally. -/
theorem populate_renames_dockerfile_to_misspelled_target_witness :
    lookupEnt [("Dockerilfe", FsNode.file "FROM rhel")] "Dockerilfe" =
      some (FsNode.file "FROM rhel") ∧
    isFileEnt [("Dockerilfe", FsNode.file "FROM rhel")] "Dockerfile" = false :=
  populate_renames_dockerfile_to_misspelled_target
    (fun p => if p = "/src" then some [("Dockerfile.rhel", FsNode.file "FROM rhel")] else none)
    (fun a => if a = "app" then some "/src" else none)
    ⟨some "app", none, some "Dockerfile.rhel"⟩ "Dockerfile.rhel" "/src" [] []
    [("Dockerilfe", FsNode.file "FROM rhel")] (FsNode.file "FROM rhel")
    rfl (by decide) rfl rfl rfl rfl

/-- C9: because the stray-variant cleanup loop's body is guarded by
`__name__ == '__main__'`, it is unreachable when the module is imported:
population returns the post-copy-post-rename tree unchanged, so every
`Dockerfile.*` entry present after the copy and rename steps is still
present when populate returns. -/
theorem populate_preserves_dockerfile_variants_when_imported
    (readDir : String → Option Entries) (source_alias : String → Option String)
    (sc : SourceConfig) (sp : String) (distgit cleaned normalized : Entries)
    (hclean : clean_distgit_entries distgit = .ok cleaned)
    (hsp : source_path readDir source_alias ⟨some sc⟩ = .ok sp)
    (hnorm : normalize_dockerfile sc
      (recursive_overwrite ((readDir sp).getD []) cleaned) = .ok normalized) :
    populate_distgit_dir false readDir source_alias ⟨some sc⟩ distgit = .ok normalized ∧
    cleanup_dockerfile_variants false normalized = .ok normalized := by
  have hc : cleanup_dockerfile_variants false normalized = .ok normalized :=
    cleanupLoop_not_main _ _
  exact ⟨by simp [populate_distgit_dir, hclean, hsp, hnorm, hc], hc⟩

/-- Witness for C9 at a concrete run in which the stray variant
`Dockerfile.centos` survives population. -/
theorem populate_preserves_dockerfile_variants_when_imported_witness :
    populate_distgit_dir false
      (fun p => if p = "/src" then some [("Dockerfile.centos", FsNode.file "x"), ("Dockerfile.rhel", FsNode.file "y")] else none)
      (fun a => if a = "app" then some "/src" else none)
      ⟨some ⟨some "app", none, some "Dockerfile.rhel"⟩⟩ [] =
      .ok [("Dockerfile.centos", FsNode.file "x"), ("Dockerilfe", FsNode.file "y")] ∧
    cleanup_dockerfile_variants false
      [("Dockerfile.centos", FsNode.file "x"), ("Dockerilfe", FsNode.file "y")] =
      .ok [("Dockerfile.centos", FsNode.file "x"), ("Dockerilfe", FsNode.file "y")] :=
  populate_preserves_dockerfile_variants_when_imported
    (fun p => if p = "/src" then some [("Dockerfile.centos", FsNode.file "x"), ("Dockerfile.rhel", FsNode.file "y")] else none)
    (fun a => if a = "app" then some "/src" else none)
    ⟨some "app", none, some "Dockerfile.rhel"⟩ "/src" [] []
    [("Dockerfile.centos", FsNode.file "x"), ("Dockerilfe", FsNode.file "y")]
    rfl rfl rfl

/-- C10: whenever the distgit directory's direct entries include a
non-hidden regular file not named `additional-tags` and `content.source`
is present, the selective-clean step fails (it reaches `shutil.rmtree` on
a regular file, or aborts even earlier), so populate returns that error
before any source content is copied: the copy, rename and cleanup steps
are unexecuted. -/
theorem populate_fails_on_regular_file_in_distgit
    (runAsMain : Bool) (readDir : String → Option Entries)
    (source_alias : String → Option String) (sc : SourceConfig)
    (distgit : Entries) (n c : String)
    (hfile : lookupEnt distgit n = some (FsNode.file c))
    (hhid : strStartsWith n "." = false)
    (hsent : n ≠ "additional-tags") :
    ∃ e, clean_distgit_entries distgit = .error e ∧
      populate_distgit_dir runAsMain readDir source_alias ⟨some sc⟩ distgit = .error e := by
  obtain ⟨e, he⟩ := cleanLoop_stuck_on_file (listNames distgit) distgit n c
    (mem_listNames_of_lookupEnt _ _ _ hfile) hhid hsent hfile
  have hclean : clean_distgit_entries distgit = .error e := he
  exact ⟨e, hclean, by simp [populate_distgit_dir, hclean]⟩

/-- Witness for C10 at a concrete distgit tree holding the regular file
`old.txt`. -/
theorem populate_fails_on_regular_file_in_distgit_witness :
    ∃ e, clean_distgit_entries [("old.txt", FsNode.file "x")] = .error e ∧
      populate_distgit_dir false (fun _ => none) (fun _ => none)
        ⟨some ⟨none, none, none⟩⟩ [("old.txt", FsNode.file "x")] = .error e :=
  populate_fails_on_regular_file_in_distgit false (fun _ => none) (fun _ => none)
    ⟨none, none, none⟩ [("old.txt", FsNode.file "x")] "old.txt" "x"
    rfl (by decide) (by decide)

end Elliott
